import Mathlib

/-
Shallow embedding of the V2EX post-monitoring pipeline (src/main.py,
class V2EXMonitor).  External collaborators are modelled as opaque
functions gathered in an `Env` record, with exactly the failure modes
the source gives them: `_scrape_content` and `_extract_codes_with_ai`
wrap their bodies in try/except and convert an exception into `None`,
and the two transport methods catch and only log, so those appear as
`Option` results and caught `Except` calls.  The newspaper article
fallback is different: its `download()`/`parse()` calls on lines
227-229 are NOT wrapped in any try/except, so it is modelled as an
`Except`-valued function whose `error` outcome propagates out of the
per-post loop — `processPosts` then stops, recording the escaped
exception, which in the source is only caught by the cycle-level
handler in `run()` (line 273).
-/

deriving instance DecidableEq for Except

/-- A feed item as consumed by `process_posts` (lines 199-201, 205-207):
fields `id`, `title`, `content`, `last_modified`, `url`. -/
structure Post where
  id : Int
  title : String
  content : String
  last_modified : Int
  url : String
deriving DecidableEq

/-- One value of the persisted mapping (lines 251-255): the dict written
for a post id, with keys `last_modified`, `title`, `url`. -/
structure ProcessedRecord where
  last_modified : Int
  title : String
  url : String
deriving DecidableEq

/-- A notification attempt made by `_send_notification` (lines 241-248):
the payload handed to the transport, plus whether the transport call
completed without an exception (the exception itself is caught and only
logged, lines 173-174 and 193-194). -/
structure Notification where
  title : String
  body : String
  delivered : Bool
deriving DecidableEq

/-- The in-memory `self.processed_posts` dict: a finite mapping from the
string post id to its record (line 74). -/
abbrev ProcState := List (String × ProcessedRecord)

/-- `post_id = str(post["id"])` (line 200). -/
def postKey (p : Post) : String :=
  toString p.id

/-- Dictionary lookup `self.processed_posts[post_id]` /
`post_id in self.processed_posts` (lines 211-212). -/
def lookupRecord : ProcState → String → Option ProcessedRecord
  | [], _ => none
  | (k, v) :: rest, key => if k = key then some v else lookupRecord rest key

/-- Dictionary assignment `self.processed_posts[post_id] = {...}`
(line 251): overwrite the entry if present, otherwise add it. -/
def insertRecord : ProcState → String → ProcessedRecord → ProcState
  | [], key, v => [(key, v)]
  | (k, w) :: rest, key, v =>
      if k = key then (key, v) :: rest else (k, w) :: insertRecord rest key v

/-- Character-list prefix test, auxiliary to substring containment. -/
def startsWithList : List Char → List Char → Bool
  | [], _ => true
  | _ :: _, [] => false
  | a :: as, b :: bs => a == b && startsWithList as bs

/-- `needle` occurs as a contiguous substring of `hay`: Python's
`needle in hay` on strings, by sliding-window search. -/
def containsSub : List Char → List Char → Bool
  | [], needle => startsWithList needle []
  | c :: t, needle => startsWithList needle (c :: t) || containsSub t needle

/-- Python `keyword in text` (substring containment, case-sensitive). -/
def strContains (text pat : String) : Bool :=
  containsSub text.data pat.data

/-- `_check_keywords` (lines 95-97):
`any(keyword in text for keyword in self.keywords)`. -/
def check_keywords (keywords : List String) (text : String) : Bool :=
  keywords.any (fun k => strContains text k)

/-- Split a character list on commas, with Python `str.split(",")`
semantics: the empty input yields one empty field, and every comma
starts a new field. -/
def splitOnComma : List Char → List (List Char)
  | [] => [[]]
  | c :: rest =>
      if c = ',' then [] :: splitOnComma rest
      else
        match splitOnComma rest with
        | [] => [[c]]
        | h :: t => (c :: h) :: t

/-- `os.getenv("KEYWORDS", ...).split(",")` (line 73): the configured
keyword string split on commas. -/
def parseKeywords (s : String) : List String :=
  (splitOnComma s.data).map String.mk

/-- Line 103 of `_get_latest_posts`: the cache-busted URL computed into
the local variable `url`. -/
def cacheBustedUrl (base : String) (epochMs : Int) : String :=
  base ++ "?t=" ++ toString epochMs

/-- Lines 104-105 of `_get_latest_posts`: the URL actually passed to
`requests.get` is `os.getenv("V2EX_API_URL")` itself, not the local
variable built on line 103, so the epoch-ms argument is discarded. -/
def requestedUrl (base : String) (_epochMs : Int) : String :=
  base

/-- The opaque collaborators of the pipeline.  `scrape` is
`_scrape_content` (its try/except returns `None` on failure, lines
126-128).  `article` is the newspaper fallback of lines 227-231:
`Article(url)`, `download()` and `parse()` run with NO try/except, so an
exception there is an `error` result that the per-post code does not
catch; a successful parse yields `article.text`, possibly empty.
`extract` is `_extract_codes_with_ai` (its try/except returns `None` on
failure, lines 149-151).  `barkSend`/`emailSend` are the raw transport
calls, which may raise (modelled as `Except`) but are caught by the
try/except inside the two sender methods. -/
structure Env where
  scrape : String → Option String
  article : String → Except String String
  extract : String → Option String
  notificationType : String
  barkSend : String → String → Except String Unit
  emailSend : String → String → Except String Unit

/-- Lines 227-231: run the article fallback.  A raised exception
propagates (`error`); otherwise `article.text` is used when non-empty
(`ok (some t)`) and the no-text case is `ok none` (the logged
`continue` path of lines 232-234). -/
def fallbackContent (env : Env) (url : String) : Except String (Option String) :=
  match env.article url with
  | Except.error e => Except.error e
  | Except.ok t => Except.ok (if t = "" then none else some t)

/-- Lines 225-234: the content obtained for a post URL.  The scrape
collaborator is preferred; when it yields `None` or an empty string
(`if not content:`), the article fallback decides the outcome — which
may be content, no content, or an uncaught exception. -/
def contentOf (env : Env) (url : String) : Except String (Option String) :=
  match env.scrape url with
  | some c => if c = "" then fallbackContent env url else Except.ok (some c)
  | none => fallbackContent env url

/-- `extracted_info.replace("*", "")` (line 246): remove every asterisk. -/
def stripStars (s : String) : String :=
  String.mk (s.data.filter (fun c => c != '*'))

/-- Line 242: the notification title `"V2EX新激活码: %s" % post["title"]`. -/
def notificationTitle (p : Post) : String :=
  "V2EX新激活码: " ++ p.title

/-- Lines 243-247: the notification body, the post URL followed by the
extraction result with asterisks stripped. -/
def notificationBody (p : Post) (extracted : String) : String :=
  "链接: " ++ p.url ++ "\n\n提取信息:\n" ++ stripStars extracted

/-- `_send_bark_notification` (lines 162-174): the transport call is
wrapped in try/except; an exception is caught and logged, so the method
always returns.  The boolean records whether delivery succeeded. -/
def send_bark_notification (env : Env) (title body : String) : Bool :=
  match env.barkSend title body with
  | Except.ok _ => true
  | Except.error _ => false

/-- `_send_email_notification` (lines 176-194): likewise wrapped in
try/except; an exception is caught and logged. -/
def send_email_notification (env : Env) (title body : String) : Bool :=
  match env.emailSend title body with
  | Except.ok _ => true
  | Except.error _ => false

/-- `_send_notification` (lines 153-160): dispatch on the configured
transport type; an unknown type sends nothing. -/
def send_notification (env : Env) (title body : String) : Bool :=
  if env.notificationType = "bark" then send_bark_notification env title body
  else if env.notificationType = "email" then send_email_notification env title body
  else true

/-- The record committed for a post (lines 251-255). -/
def mkRecord (p : Post) : ProcessedRecord :=
  { last_modified := p.last_modified, title := p.title, url := p.url }

/-- Lines 210-213: the post is processed further unless its id is
present with a stored last-modified that is ≥ the post's value. -/
def isNewPost (st : ProcState) (p : Post) : Bool :=
  match lookupRecord st (postKey p) with
  | none => true
  | some r => decide (r.last_modified < p.last_modified)

/-- Lines 204-208: the keyword filter over title or content. -/
def matchesPost (kws : List String) (p : Post) : Bool :=
  check_keywords kws p.title || check_keywords kws p.content

/-- The combined guard of lines 204-213: the loop body continues past
both `continue` statements exactly when the keyword filter passes and
the is-new check passes. -/
def postGuard (kws : List String) (st : ProcState) (p : Post) : Bool :=
  matchesPost kws p && isNewPost st p

/-- Lines 224-256, after the guards: fetch content — abandoning the post
when none is obtained (line 234), and letting an article-fallback
exception propagate uncaught — then extract codes treating a failure as
the empty extraction (line 237), send the notification, and commit the
record and persist (lines 250-256). -/
def runPipeline (env : Env) (st : ProcState) (p : Post) :
    Except String (ProcState × List Notification) :=
  match contentOf env p.url with
  | Except.error e => Except.error e
  | Except.ok none => Except.ok (st, [])
  | Except.ok (some content) =>
      let extracted := (env.extract content).getD ""
      let title := notificationTitle p
      let body := notificationBody p extracted
      let delivered := send_notification env title body
      Except.ok (insertRecord st (postKey p) (mkRecord p),
        [{ title := title, body := body, delivered := delivered }])

/-- One iteration of the `for post in posts` loop of `process_posts`
(lines 199-256): the updated mapping and the notifications emitted for
this post, or the exception escaping the loop body. -/
def processPost (env : Env) (kws : List String) (st : ProcState) (p : Post) :
    Except String (ProcState × List Notification) :=
  if matchesPost kws p then
    if isNewPost st p then runPipeline env st p else Except.ok (st, [])
  else Except.ok (st, [])

/-- The result of one call to `process_posts` on a fetched snapshot: the
mapping and notifications accumulated before the loop ended, and the
exception that escaped `process_posts` to `run()`'s cycle-level handler
(line 273), if any. -/
structure CycleOutcome where
  state : ProcState
  notifs : List Notification
  escaped : Option String
deriving DecidableEq

/-- `process_posts` (lines 196-256) applied to an already-fetched feed
snapshot: fold the per-post step over the posts in order.  An exception
escaping a loop body aborts the loop — the remaining posts are not
processed that cycle. -/
def processPosts (env : Env) (kws : List String) (st : ProcState) :
    List Post → CycleOutcome
  | [] => { state := st, notifs := [], escaped := none }
  | p :: rest =>
      match processPost env kws st p with
      | Except.error e => { state := st, notifs := [], escaped := some e }
      | Except.ok r =>
          let o := processPosts env kws r.1 rest
          { state := o.state, notifs := r.2 ++ o.notifs, escaped := o.escaped }

/-- The in-memory mapping after one loop body: on an exception, no
mutation by this post has happened. -/
def stateOf (st : ProcState) : Except String (ProcState × List Notification) → ProcState
  | Except.ok r => r.1
  | Except.error _ => st

/-- The notifications emitted by one loop body. -/
def notifsOf : Except String (ProcState × List Notification) → List Notification
  | Except.ok r => r.2
  | Except.error _ => []

/-- The exception escaping one loop body, if any. -/
def errOf : Except String (ProcState × List Notification) → Option String
  | Except.ok _ => none
  | Except.error e => some e

/-- The content fetch produced actual content. -/
def fetchOk (env : Env) (url : String) : Bool :=
  match contentOf env url with
  | Except.ok (some _) => true
  | _ => false

/-- The transport-independent part of a notification attempt. -/
def payloadOf (n : Notification) : String × String :=
  (n.title, n.body)

/-- Two environments that agree on everything except the notification
transports. -/
def sameCollaborators (e₁ e₂ : Env) : Prop :=
  e₁.scrape = e₂.scrape ∧ e₁.article = e₂.article ∧ e₁.extract = e₂.extract

/-
Test fixtures: concrete environments and feeds used by the witnesses
and counterexamples.
-/

/-- An environment in which every collaborator succeeds. -/
def testEnv : Env where
  scrape := fun _ => some "raw 送码 content CODE-1"
  article := fun _ => Except.ok ""
  extract := fun _ => some "CODE-1"
  notificationType := "bark"
  barkSend := fun _ _ => Except.ok ()
  emailSend := fun _ _ => Except.ok ()

/-- An environment in which both content sources fail in-band: the
scrape call returns `None` and the article fallback parses but finds no
text.  Both transports raise. -/
def failEnv : Env where
  scrape := fun _ => none
  article := fun _ => Except.ok ""
  extract := fun _ => none
  notificationType := "bark"
  barkSend := fun _ _ => Except.error "connection refused"
  emailSend := fun _ _ => Except.error "connection refused"

/-- An environment in which the scrape collaborator fails, the article
fallback succeeds with text, and the AI extraction fails. -/
def fallbackEnv : Env where
  scrape := fun _ => none
  article := fun _ => Except.ok "page text 送码 CODE-9"
  extract := fun _ => none
  notificationType := "bark"
  barkSend := fun _ _ => Except.ok ()
  emailSend := fun _ _ => Except.ok ()

/-- `testEnv` with a failing bark transport, all collaborators equal. -/
def barkFailEnv : Env where
  scrape := fun _ => some "raw 送码 content CODE-1"
  article := fun _ => Except.ok ""
  extract := fun _ => some "CODE-1"
  notificationType := "bark"
  barkSend := fun _ _ => Except.error "http 500"
  emailSend := fun _ _ => Except.ok ()

/-- An environment in which the scrape collaborator always fails and the
article fallback raises for one specific URL but succeeds elsewhere. -/
def raiseEnv : Env where
  scrape := fun _ => none
  article := fun url =>
    if url = "https://x/44" then
      Except.error "ArticleException: article download failed"
    else Except.ok "页面 送码 CODE-7"
  extract := fun _ => some "CODE-7"
  notificationType := "bark"
  barkSend := fun _ _ => Except.ok ()
  emailSend := fun _ _ => Except.ok ()

/-- The default keyword configuration, parsed (line 73). -/
def tKws : List String := ["送码", "兑换码", "激活码"]

/-- A keyword-matching post. -/
def tPost1 : Post :=
  { id := 42, title := "送码 free", content := "CODE-1 CODE-2",
    last_modified := 1000, url := "https://x/42" }

/-- A post matching no keyword. -/
def tPost2 : Post :=
  { id := 43, title := "hello", content := "nothing here",
    last_modified := 1000, url := "https://x/43" }

/-- A second keyword-matching post. -/
def tPost3 : Post :=
  { id := 44, title := "来领兑换码", content := "stuff",
    last_modified := 2000, url := "https://x/44" }

/-- A three-post feed snapshot with two keyword matches. -/
def tPosts : List Post := [tPost1, tPost2, tPost3]

/-
Basic lemmas about the embedded operations.
-/

theorem containsSub_nil (l : List Char) : containsSub l [] = true := by
  induction l with
  | nil => rfl
  | cons c rest ih => simp [containsSub, startsWithList]

theorem lookupRecord_insertRecord (st : ProcState) (key k : String)
    (v : ProcessedRecord) :
    lookupRecord (insertRecord st key v) k
      = if k = key then some v else lookupRecord st k := by
  induction st with
  | nil =>
      by_cases h : k = key
      · subst h; simp [insertRecord, lookupRecord]
      · have h2 : ¬ key = k := fun hk => h hk.symm
        simp [insertRecord, lookupRecord, h, h2]
  | cons hd rest ih =>
      obtain ⟨a, w⟩ := hd
      by_cases h1 : a = key
      · subst h1
        by_cases h2 : k = a
        · subst h2; simp [insertRecord, lookupRecord]
        · have h3 : ¬ a = k := fun hk => h2 hk.symm
          simp [insertRecord, lookupRecord, h2, h3]
      · by_cases h2 : a = k
        · subst h2
          have h3 : ¬ a = key := h1
          simp [insertRecord, lookupRecord, h1, h3]
        · simp [insertRecord, lookupRecord, h1, h2, ih]

theorem processPost_not_matching (env : Env) (kws : List String)
    (st : ProcState) (p : Post) (h : matchesPost kws p = false) :
    processPost env kws st p = Except.ok (st, []) := by
  simp [processPost, h]

theorem processPost_not_new (env : Env) (kws : List String)
    (st : ProcState) (p : Post) (h : isNewPost st p = false) :
    processPost env kws st p = Except.ok (st, []) := by
  simp [processPost, h]

theorem processPost_run (env : Env) (kws : List String)
    (st : ProcState) (p : Post) (hm : matchesPost kws p = true)
    (hn : isNewPost st p = true) :
    processPost env kws st p = runPipeline env st p := by
  simp [processPost, hm, hn]

theorem runPipeline_error (env : Env) (st : ProcState) (p : Post)
    (e : String) (h : contentOf env p.url = Except.error e) :
    runPipeline env st p = Except.error e := by
  simp [runPipeline, h]

theorem runPipeline_none (env : Env) (st : ProcState) (p : Post)
    (h : contentOf env p.url = Except.ok none) :
    runPipeline env st p = Except.ok (st, []) := by
  simp [runPipeline, h]

theorem runPipeline_some (env : Env) (st : ProcState) (p : Post)
    (c : String) (h : contentOf env p.url = Except.ok (some c)) :
    runPipeline env st p
      = Except.ok (insertRecord st (postKey p) (mkRecord p),
         [{ title := notificationTitle p,
            body := notificationBody p ((env.extract c).getD ""),
            delivered := send_notification env (notificationTitle p)
              (notificationBody p ((env.extract c).getD "")) }]) := by
  simp [runPipeline, h]

theorem processPosts_cons_ok (env : Env) (kws : List String) (st : ProcState)
    (p : Post) (rest : List Post) (r : ProcState × List Notification)
    (h : processPost env kws st p = Except.ok r) :
    processPosts env kws st (p :: rest)
      = { state := (processPosts env kws r.1 rest).state,
          notifs := r.2 ++ (processPosts env kws r.1 rest).notifs,
          escaped := (processPosts env kws r.1 rest).escaped } := by
  simp [processPosts, h]

theorem processPosts_cons_error (env : Env) (kws : List String)
    (st : ProcState) (p : Post) (rest : List Post) (e : String)
    (h : processPost env kws st p = Except.error e) :
    processPosts env kws st (p :: rest)
      = { state := st, notifs := [], escaped := some e } := by
  simp [processPosts, h]

theorem processPost_skip_of_no_content (env : Env) (kws : List String)
    (st : ProcState) (p : Post) (hf : contentOf env p.url = Except.ok none) :
    processPost env kws st p = Except.ok (st, []) := by
  by_cases hm : matchesPost kws p = true
  · by_cases hn : isNewPost st p = true
    · rw [processPost_run env kws st p hm hn, runPipeline_none env st p hf]
    · exact processPost_not_new env kws st p (by simpa using hn)
  · exact processPost_not_matching env kws st p (by simpa using hm)

theorem processPost_state (env : Env) (kws : List String) (st : ProcState)
    (p : Post) :
    processPost env kws st p = Except.ok (st, [])
    ∨ (∃ n : Notification,
        processPost env kws st p
          = Except.ok (insertRecord st (postKey p) (mkRecord p), [n])
        ∧ isNewPost st p = true)
    ∨ ∃ e : String, processPost env kws st p = Except.error e := by
  by_cases hm : matchesPost kws p = true
  · by_cases hn : isNewPost st p = true
    · rw [processPost_run env kws st p hm hn]
      cases hc : contentOf env p.url with
      | error e => exact Or.inr (Or.inr ⟨e, runPipeline_error env st p e hc⟩)
      | ok oc =>
          cases oc with
          | none => exact Or.inl (runPipeline_none env st p hc)
          | some c =>
              exact Or.inr (Or.inl ⟨_, runPipeline_some env st p c hc, hn⟩)
    · exact Or.inl (processPost_not_new env kws st p (by simpa using hn))
  · exact Or.inl (processPost_not_matching env kws st p (by simpa using hm))

theorem processPost_monotone (env : Env) (kws : List String) (st : ProcState)
    (p : Post) (k : String) (r : ProcessedRecord)
    (h : lookupRecord st k = some r) :
    ∃ r', lookupRecord (stateOf st (processPost env kws st p)) k = some r'
      ∧ r.last_modified ≤ r'.last_modified
      ∧ (r' ≠ r → r.last_modified < r'.last_modified) := by
  rcases processPost_state env kws st p with hs | ⟨n, hs, hn⟩ | ⟨e, hs⟩
  · exact ⟨r, by rw [hs]; exact h, le_refl _, fun hne => absurd rfl hne⟩
  · rw [hs]
    simp only [stateOf]
    rw [lookupRecord_insertRecord]
    by_cases hk : k = postKey p
    · subst hk
      have hlt : r.last_modified < p.last_modified := by
        unfold isNewPost at hn
        rw [h] at hn
        simpa using hn
      exact ⟨mkRecord p, by simp, le_of_lt hlt, fun _ => hlt⟩
    · exact ⟨r, by simp [hk, h], le_refl _, fun hne => absurd rfl hne⟩
  · exact ⟨r, by rw [hs]; exact h, le_refl _, fun hne => absurd rfl hne⟩

theorem processPosts_monotone (env : Env) (kws : List String)
    (posts : List Post) : ∀ (st : ProcState) (k : String) (r : ProcessedRecord),
    lookupRecord st k = some r →
    ∃ r', lookupRecord (processPosts env kws st posts).state k = some r'
      ∧ r.last_modified ≤ r'.last_modified
      ∧ (r' ≠ r → r.last_modified < r'.last_modified) := by
  induction posts with
  | nil =>
      intro st k r h
      exact ⟨r, h, le_refl _, fun hne => absurd rfl hne⟩
  | cons p rest ih =>
      intro st k r h
      cases hpp : processPost env kws st p with
      | error e =>
          rw [processPosts_cons_error env kws st p rest e hpp]
          exact ⟨r, h, le_refl _, fun hne => absurd rfl hne⟩
      | ok q =>
          obtain ⟨r1, h1, hle1, hlt1⟩ := processPost_monotone env kws st p k r h
          rw [hpp] at h1
          simp only [stateOf] at h1
          obtain ⟨r2, h2, hle2, hlt2⟩ := ih q.1 k r1 h1
          rw [processPosts_cons_ok env kws st p rest q hpp]
          refine ⟨r2, h2, le_trans hle1 hle2, ?_⟩
          intro hne
          by_cases he : r1 = r
          · subst he
            exact hlt2 hne
          · exact lt_of_lt_of_le (hlt1 he) hle2

theorem fetchOk_some (env : Env) (url : String) (h : fetchOk env url = true) :
    ∃ c, contentOf env url = Except.ok (some c) := by
  cases hc : contentOf env url with
  | error e => simp [fetchOk, hc] at h
  | ok oc =>
      cases oc with
      | none => simp [fetchOk, hc] at h
      | some c => exact ⟨c, rfl⟩

theorem errOf_eq_none {r : Except String (ProcState × List Notification)}
    (h : errOf r = none) : ∃ q, r = Except.ok q := by
  cases r with
  | ok q => exact ⟨q, rfl⟩
  | error e => simp [errOf] at h

theorem errOf_eq_some {r : Except String (ProcState × List Notification)}
    {e : String} (h : errOf r = some e) : r = Except.error e := by
  cases r with
  | ok q => simp [errOf] at h
  | error e2 =>
      simp [errOf] at h
      rw [h]

theorem contentOf_congr (e₁ e₂ : Env) (h1 : e₁.scrape = e₂.scrape)
    (h2 : e₁.article = e₂.article) (url : String) :
    contentOf e₁ url = contentOf e₂ url := by
  simp [contentOf, fallbackContent, h1, h2]

theorem processPost_collab_congr (e₁ e₂ : Env) (h : sameCollaborators e₁ e₂)
    (kws : List String) (st : ProcState) (p : Post) :
    stateOf st (processPost e₁ kws st p) = stateOf st (processPost e₂ kws st p)
    ∧ (notifsOf (processPost e₁ kws st p)).map payloadOf
        = (notifsOf (processPost e₂ kws st p)).map payloadOf
    ∧ errOf (processPost e₁ kws st p) = errOf (processPost e₂ kws st p) := by
  obtain ⟨h1, h2, h3⟩ := h
  by_cases hm : matchesPost kws p = true
  · by_cases hn : isNewPost st p = true
    · rw [processPost_run e₁ kws st p hm hn, processPost_run e₂ kws st p hm hn]
      have hco := contentOf_congr e₁ e₂ h1 h2 p.url
      cases hc : contentOf e₂ p.url with
      | error e =>
          rw [runPipeline_error e₁ st p e (hco.trans hc),
              runPipeline_error e₂ st p e hc]
          exact ⟨rfl, rfl, rfl⟩
      | ok oc =>
          cases oc with
          | none =>
              rw [runPipeline_none e₁ st p (hco.trans hc),
                  runPipeline_none e₂ st p hc]
              exact ⟨rfl, rfl, rfl⟩
          | some c =>
              rw [runPipeline_some e₁ st p c (hco.trans hc),
                  runPipeline_some e₂ st p c hc, h3]
              exact ⟨rfl, by simp [notifsOf, payloadOf], rfl⟩
    · rw [processPost_not_new e₁ kws st p (by simpa using hn),
          processPost_not_new e₂ kws st p (by simpa using hn)]
      exact ⟨rfl, rfl, rfl⟩
  · rw [processPost_not_matching e₁ kws st p (by simpa using hm),
        processPost_not_matching e₂ kws st p (by simpa using hm)]
    exact ⟨rfl, rfl, rfl⟩

theorem processPosts_collab_congr (e₁ e₂ : Env) (h : sameCollaborators e₁ e₂)
    (kws : List String) (posts : List Post) : ∀ st : ProcState,
    (processPosts e₁ kws st posts).state = (processPosts e₂ kws st posts).state
    ∧ (processPosts e₁ kws st posts).notifs.map payloadOf
        = (processPosts e₂ kws st posts).notifs.map payloadOf
    ∧ (processPosts e₁ kws st posts).escaped
        = (processPosts e₂ kws st posts).escaped := by
  induction posts with
  | nil => intro st; exact ⟨rfl, rfl, rfl⟩
  | cons p rest ih =>
      intro st
      obtain ⟨hs, hnp, he⟩ := processPost_collab_congr e₁ e₂ h kws st p
      cases hp1 : processPost e₁ kws st p with
      | error e =>
          have hp2 : processPost e₂ kws st p = Except.error e := by
            apply errOf_eq_some
            rw [← he, hp1]
            rfl
          rw [processPosts_cons_error e₁ kws st p rest e hp1,
              processPosts_cons_error e₂ kws st p rest e hp2]
          exact ⟨rfl, rfl, rfl⟩
      | ok q₁ =>
          have he2 : errOf (processPost e₂ kws st p) = none := by
            rw [← he, hp1]
            rfl
          obtain ⟨q₂, hp2⟩ := errOf_eq_none he2
          rw [hp1, hp2] at hs hnp
          simp only [stateOf] at hs
          simp only [notifsOf] at hnp
          obtain ⟨ihs, ihn, ihe⟩ := ih q₁.1
          rw [processPosts_cons_ok e₁ kws st p rest q₁ hp1,
              processPosts_cons_ok e₂ kws st p rest q₂ hp2, ← hs]
          refine ⟨ihs, ?_, ihe⟩
          dsimp only
          rw [List.map_append, List.map_append, hnp, ihn]

theorem processPosts_drop_no_content (env : Env) (kws : List String)
    (p : Post) (hf : contentOf env p.url = Except.ok none) :
    ∀ (pre : List Post) (st : ProcState) (rest : List Post),
      processPosts env kws st (pre ++ p :: rest)
        = processPosts env kws st (pre ++ rest) := by
  intro pre
  induction pre with
  | nil =>
      intro st rest
      rw [List.nil_append, List.nil_append,
          processPosts_cons_ok env kws st p rest (st, [])
            (processPost_skip_of_no_content env kws st p hf)]
      simp
  | cons q pre2 ih =>
      intro st rest
      rw [List.cons_append, List.cons_append]
      cases hq : processPost env kws st q with
      | error e =>
          rw [processPosts_cons_error env kws st q _ e hq,
              processPosts_cons_error env kws st q _ e hq]
      | ok r =>
          rw [processPosts_cons_ok env kws st q _ r hq,
              processPosts_cons_ok env kws st q _ r hq, ih r.1 rest]

theorem processPosts_no_new_work (env : Env) (kws : List String)
    (posts : List Post) : ∀ st : ProcState,
    (∀ p ∈ posts, matchesPost kws p = true → isNewPost st p = false) →
    processPosts env kws st posts = { state := st, notifs := [], escaped := none } := by
  induction posts with
  | nil => intro st _; rfl
  | cons p rest ih =>
      intro st h
      have hp : processPost env kws st p = Except.ok (st, []) := by
        by_cases hm : matchesPost kws p = true
        · exact processPost_not_new env kws st p (h p (by simp) hm)
        · exact processPost_not_matching env kws st p (by simpa using hm)
      have hrest := ih st (fun q hq hmq => h q (by simp [hq]) hmq)
      rw [processPosts_cons_ok env kws st p rest (st, []) hp]
      simp [hrest]

theorem processPosts_first_pass (env : Env) (kws : List String)
    (posts : List Post) : ∀ st : ProcState,
    (∀ p ∈ posts, lookupRecord st (postKey p) = none) →
    (posts.map postKey).Nodup →
    (∀ p ∈ posts, fetchOk env p.url = true) →
    (processPosts env kws st posts).notifs.length
        = (posts.filter (fun q => matchesPost kws q)).length
    ∧ (∀ p ∈ posts, matchesPost kws p = true →
        lookupRecord (processPosts env kws st posts).state (postKey p)
          = some (mkRecord p))
    ∧ (∀ k : String, (∀ p ∈ posts, postKey p ≠ k) →
        lookupRecord (processPosts env kws st posts).state k = lookupRecord st k)
    ∧ (processPosts env kws st posts).escaped = none := by
  induction posts with
  | nil =>
      intro st _ _ _
      refine ⟨rfl, ?_, ?_, rfl⟩ <;> simp [processPosts]
  | cons p rest ih =>
      intro st h0 hnd hc
      have hk0 : lookupRecord st (postKey p) = none := h0 p (by simp)
      have hnew : isNewPost st p = true := by simp [isNewPost, hk0]
      have hnd' : (rest.map postKey).Nodup := by
        rw [List.map_cons, List.nodup_cons] at hnd
        exact hnd.2
      have hsep : ∀ q ∈ rest, postKey q ≠ postKey p := by
        intro q hq heq
        rw [List.map_cons, List.nodup_cons] at hnd
        exact hnd.1 (heq ▸ List.mem_map_of_mem postKey hq)
      by_cases hm : matchesPost kws p = true
      · obtain ⟨c, hcp⟩ := fetchOk_some env p.url (hc p (by simp))
        have hpp : processPost env kws st p
            = Except.ok (insertRecord st (postKey p) (mkRecord p),
               [{ title := notificationTitle p,
                  body := notificationBody p ((env.extract c).getD ""),
                  delivered := send_notification env (notificationTitle p)
                    (notificationBody p ((env.extract c).getD "")) }]) := by
          rw [processPost_run env kws st p hm hnew, runPipeline_some env st p c hcp]
        have h0' : ∀ q ∈ rest,
            lookupRecord (insertRecord st (postKey p) (mkRecord p)) (postKey q)
              = none := by
          intro q hq
          rw [lookupRecord_insertRecord]
          simp [hsep q hq, h0 q (by simp [hq])]
        obtain ⟨ihlen, ihcommit, ihframe, ihesc⟩ :=
          ih (insertRecord st (postKey p) (mkRecord p)) h0' hnd'
            (fun q hq => hc q (by simp [hq]))
        refine ⟨?_, ?_, ?_, ?_⟩
        · rw [processPosts_cons_ok env kws st p rest _ hpp]
          dsimp only
          simp [ihlen, List.filter_cons, hm]
        · intro q hq hmq
          rw [processPosts_cons_ok env kws st p rest _ hpp]
          dsimp only
          rcases List.mem_cons.mp hq with hqp | hqr
          · subst hqp
            have hfr := ihframe (postKey q) (fun w hw => hsep w hw)
            rw [hfr, lookupRecord_insertRecord]
            simp
          · exact ihcommit q hqr hmq
        · intro k hk
          rw [processPosts_cons_ok env kws st p rest _ hpp]
          dsimp only
          have hfr := ihframe k (fun w hw => hk w (by simp [hw]))
          rw [hfr, lookupRecord_insertRecord]
          have hpk : ¬ k = postKey p := fun hekey => hk p (by simp) hekey.symm
          simp [hpk]
        · rw [processPosts_cons_ok env kws st p rest _ hpp]
          dsimp only
          exact ihesc
      · have hpp : processPost env kws st p = Except.ok (st, []) :=
          processPost_not_matching env kws st p (by simpa using hm)
        obtain ⟨ihlen, ihcommit, ihframe, ihesc⟩ :=
          ih st (fun q hq => h0 q (by simp [hq])) hnd'
            (fun q hq => hc q (by simp [hq]))
        refine ⟨?_, ?_, ?_, ?_⟩
        · rw [processPosts_cons_ok env kws st p rest _ hpp]
          dsimp only
          simp [ihlen, List.filter_cons, hm]
        · intro q hq hmq
          rw [processPosts_cons_ok env kws st p rest _ hpp]
          dsimp only
          rcases List.mem_cons.mp hq with hqp | hqr
          · subst hqp
            exact absurd hmq (by simpa using hm)
          · exact ihcommit q hqr hmq
        · intro k hk
          rw [processPosts_cons_ok env kws st p rest _ hpp]
          dsimp only
          exact ihframe k (fun w hw => hk w (by simp [hw]))
        · rw [processPosts_cons_ok env kws st p rest _ hpp]
          dsimp only
          exact ihesc

/-
Claim theorems.
-/

/-- C1 (counterexample): with every collaborator succeeding, a post
whose id is absent from the processed mapping but which matches no
keyword is not processed at all — no notification is emitted and no
record is committed — refuting the claimed equivalence for arbitrary
feed posts. -/
theorem pipeline_guard_counterexample :
    lookupRecord [] (postKey tPost2) = none
    ∧ matchesPost tKws tPost2 = false
    ∧ processPost testEnv tKws [] tPost2 = Except.ok ([], []) := by
  refine ⟨rfl, by decide, by decide⟩

/-- C1 (amended): for every keyword-matching post of the feed, the
per-post pipeline of lines 224-256 is entered iff the post id is absent
from the mapping or stored with a strictly smaller last-modified; a
repeated occurrence whose last-modified is at most the stored value is
skipped, leaving the mapping and the notifications untouched. -/
theorem pipeline_guard_amended (env : Env) (kws : List String)
    (st : ProcState) (p : Post) (hm : matchesPost kws p = true) :
    processPost env kws st p
      = (if postGuard kws st p then runPipeline env st p else Except.ok (st, []))
    ∧ (postGuard kws st p = true ↔
        (lookupRecord st (postKey p) = none
          ∨ ∃ r, lookupRecord st (postKey p) = some r
              ∧ r.last_modified < p.last_modified))
    ∧ (∀ r, lookupRecord st (postKey p) = some r →
        p.last_modified ≤ r.last_modified →
        processPost env kws st p = Except.ok (st, [])) := by
  refine ⟨?_, ?_, ?_⟩
  · by_cases hn : isNewPost st p = true
    · simp [processPost, postGuard, hm, hn]
    · simp [processPost, postGuard, hm, hn]
  · constructor
    · intro hg
      have hn : isNewPost st p = true := by
        simp [postGuard, hm] at hg
        exact hg
      unfold isNewPost at hn
      cases hl : lookupRecord st (postKey p) with
      | none => exact Or.inl rfl
      | some r =>
          rw [hl] at hn
          exact Or.inr ⟨r, rfl, by simpa using hn⟩
    · intro hor
      simp only [postGuard, hm, Bool.true_and]
      unfold isNewPost
      rcases hor with hnone | ⟨r, hr, hlt⟩
      · rw [hnone]
      · rw [hr]
        simpa using hlt
  · intro r hr hle
    apply processPost_not_new
    unfold isNewPost
    rw [hr]
    simpa using not_lt.mpr hle

/-- C1 (amended, witness): a matching post reappearing with the same
last-modified as its committed record is skipped. -/
theorem pipeline_guard_amended_witness :
    processPost testEnv tKws
        [("42", { last_modified := 1000, title := "送码 free", url := "https://x/42" })]
        tPost1
      = Except.ok
          ([("42", { last_modified := 1000, title := "送码 free", url := "https://x/42" })], []) :=
  (pipeline_guard_amended testEnv tKws
      [("42", { last_modified := 1000, title := "送码 free", url := "https://x/42" })]
      tPost1 (by decide)).2.2
    { last_modified := 1000, title := "送码 free", url := "https://x/42" }
    (by decide) (by decide)

/-- C2: processing a feed snapshot — distinct post ids, no id committed
before, every content fetch succeeding — emits exactly one notification
per keyword-matching post, commits each matching post with its own
last-modified, completes with no escaping exception, and a second pass
over the same snapshot from the resulting mapping changes nothing and
emits no notification. -/
theorem snapshot_idempotent (env : Env) (kws : List String)
    (st : ProcState) (posts : List Post)
    (h0 : ∀ p ∈ posts, lookupRecord st (postKey p) = none)
    (hnd : (posts.map postKey).Nodup)
    (hc : ∀ p ∈ posts, fetchOk env p.url = true) :
    (processPosts env kws st posts).notifs.length
        = (posts.filter (fun q => matchesPost kws q)).length
    ∧ (∀ p ∈ posts, matchesPost kws p = true →
        lookupRecord (processPosts env kws st posts).state (postKey p)
          = some (mkRecord p))
    ∧ (processPosts env kws st posts).escaped = none
    ∧ processPosts env kws (processPosts env kws st posts).state posts
        = { state := (processPosts env kws st posts).state, notifs := [],
            escaped := none } := by
  obtain ⟨hlen, hcommit, _, hesc⟩ := processPosts_first_pass env kws posts st h0 hnd hc
  refine ⟨hlen, hcommit, hesc, ?_⟩
  apply processPosts_no_new_work
  intro p hp hm
  simp [isNewPost, hcommit p hp hm, mkRecord]

/-- C2 (witness): on a concrete three-post snapshot with two matching
posts, the first pass emits two notifications and the second pass is a
no-op. -/
theorem snapshot_idempotent_witness :
    (processPosts testEnv tKws [] tPosts).notifs.length
        = (tPosts.filter (fun q => matchesPost tKws q)).length
    ∧ processPosts testEnv tKws (processPosts testEnv tKws [] tPosts).state tPosts
        = { state := (processPosts testEnv tKws [] tPosts).state, notifs := [],
            escaped := none } :=
  ⟨(snapshot_idempotent testEnv tKws [] tPosts (by decide) (by decide) (by decide)).1,
   (snapshot_idempotent testEnv tKws [] tPosts (by decide) (by decide) (by decide)).2.2.2⟩

/-- C3: a stored last-modified never decreases across a run of
process_posts: any record present before the run is still present
afterwards with a last-modified at least as large, and strictly larger
whenever the record was rewritten at all. -/
theorem stored_last_modified_monotone (env : Env) (kws : List String)
    (st : ProcState) (posts : List Post) (k : String) (r : ProcessedRecord)
    (h : lookupRecord st k = some r) :
    ∃ r', lookupRecord (processPosts env kws st posts).state k = some r'
      ∧ r.last_modified ≤ r'.last_modified
      ∧ (r' ≠ r → r.last_modified < r'.last_modified) :=
  processPosts_monotone env kws posts st k r h

/-- C3 (witness): a record stored with last-modified 500 is only ever
replaced by a strictly larger value when its post reappears edited. -/
theorem stored_last_modified_monotone_witness :
    ∃ r', lookupRecord (processPosts testEnv tKws
        [("42", { last_modified := 500, title := "old", url := "https://x/42" })]
        [tPost1]).state "42" = some r'
      ∧ (500 : Int) ≤ r'.last_modified
      ∧ (r' ≠ { last_modified := 500, title := "old", url := "https://x/42" } →
          (500 : Int) < r'.last_modified) :=
  stored_last_modified_monotone testEnv tKws
    [("42", { last_modified := 500, title := "old", url := "https://x/42" })]
    [tPost1] "42"
    { last_modified := 500, title := "old", url := "https://x/42" } (by decide)

/-- C4: for a keyword-matching post that passed the is-new check, when
the scrape collaborator yields no content (or an empty string) the
outcome is decided by the generic article extractor, and when neither
source yields content the post is abandoned for this cycle: the mapping
is unchanged, no notification is emitted, and the post is still new
afterwards. -/
theorem fallback_then_abandon (env : Env) (kws : List String)
    (st : ProcState) (p : Post)
    (_hm : matchesPost kws p = true) (hn : isNewPost st p = true) :
    ((env.scrape p.url = none ∨ env.scrape p.url = some "") →
        contentOf env p.url = fallbackContent env p.url)
    ∧ (contentOf env p.url = Except.ok none →
        processPost env kws st p = Except.ok (st, [])
        ∧ isNewPost (stateOf st (processPost env kws st p)) p = true) := by
  constructor
  · rintro (hs | hs) <;> simp [contentOf, hs]
  · intro hf
    have hskip := processPost_skip_of_no_content env kws st p hf
    refine ⟨hskip, ?_⟩
    rw [hskip]
    exact hn

/-- C4 (witness): in an environment where the scrape call fails and the
article fallback finds no text, a matching new post is abandoned with
the mapping untouched and remains new. -/
theorem fallback_then_abandon_witness :
    (contentOf failEnv tPost1.url = fallbackContent failEnv tPost1.url)
    ∧ (processPost failEnv tKws [] tPost1 = Except.ok ([], [])
        ∧ isNewPost (stateOf [] (processPost failEnv tKws [] tPost1)) tPost1 = true) :=
  ⟨(fallback_then_abandon failEnv tKws [] tPost1 (by decide) (by decide)).1 (Or.inl rfl),
   (fallback_then_abandon failEnv tKws [] tPost1 (by decide) (by decide)).2 (by decide)⟩

/-- C5: a notification transport failure is swallowed and never prevents
the commit: for a matching, new post whose content was obtained, the
mapping update is exactly the insertion of the post's record whatever
the transports do, and an environment differing only in its transports
produces the identical mapping. -/
theorem commit_despite_transport_failure (env env' : Env)
    (kws : List String) (st : ProcState) (p : Post) (c : String)
    (hm : matchesPost kws p = true) (hn : isNewPost st p = true)
    (hc : contentOf env p.url = Except.ok (some c))
    (hcollab : sameCollaborators env env') :
    stateOf st (processPost env kws st p)
        = insertRecord st (postKey p) (mkRecord p)
    ∧ stateOf st (processPost env' kws st p)
        = stateOf st (processPost env kws st p) := by
  have h1 : stateOf st (processPost env kws st p)
      = insertRecord st (postKey p) (mkRecord p) := by
    rw [processPost_run env kws st p hm hn, runPipeline_some env st p c hc]
    rfl
  exact ⟨h1, ((processPost_collab_congr env env' hcollab kws st p).1).symm⟩

/-- C5 (witness): with a bark transport that raises, the record for a
matching new post is committed exactly as with a healthy transport. -/
theorem commit_despite_transport_failure_witness :
    stateOf [] (processPost testEnv tKws [] tPost1)
        = insertRecord [] (postKey tPost1) (mkRecord tPost1)
    ∧ stateOf [] (processPost barkFailEnv tKws [] tPost1)
        = stateOf [] (processPost testEnv tKws [] tPost1) :=
  commit_despite_transport_failure testEnv barkFailEnv tKws [] tPost1
    "raw 送码 content CODE-1" (by decide) (by decide) (by decide)
    ⟨rfl, rfl, rfl⟩

/-- C6 (counterexample): the claimed per-post isolation fails on the
code: with the scrape collaborator down and the article fallback raising
for one post's URL (its download/parse is wrapped in no try/except), a
snapshot in which that post precedes a healthy matching post aborts at
the raising post — the exception escapes process_posts, the later post
gets no notification and no committed record — although that same later
post is processed and notified when the snapshot contains it alone. -/
theorem per_post_failure_counterexample :
    processPosts raiseEnv tKws [] [tPost3, tPost1]
      = { state := [], notifs := [],
          escaped := some "ArticleException: article download failed" }
    ∧ (processPosts raiseEnv tKws [] [tPost1]).notifs.length = 1
    ∧ (processPosts raiseEnv tKws [] [tPost1]).escaped = none
    ∧ lookupRecord (processPosts raiseEnv tKws [] [tPost3, tPost1]).state
        (postKey tPost1) = none := by
  refine ⟨by decide, by decide, by decide, by decide⟩

/-- C6 (amended): failures the code converts into in-band results are
confined to their post — after any successfully returning loop body the
remaining posts are processed, a post whose content sources yield no
text is dropped with no effect on the rest of the snapshot, and
transport failures change neither the mapping nor any attempted payload
nor the escape status — but an exception raised by the article fallback
for a matching new post escapes process_posts with the mapping and
notifications as they stood, skipping all remaining posts of the
snapshot for that cycle. -/
theorem per_post_failure_isolated_amended (env : Env) (kws : List String) :
    (∀ (st : ProcState) (p : Post) (r : ProcState × List Notification)
        (rest : List Post),
        processPost env kws st p = Except.ok r →
        processPosts env kws st (p :: rest)
          = { state := (processPosts env kws r.1 rest).state,
              notifs := r.2 ++ (processPosts env kws r.1 rest).notifs,
              escaped := (processPosts env kws r.1 rest).escaped })
    ∧ (∀ p : Post, contentOf env p.url = Except.ok none →
        ∀ (st : ProcState) (pre rest : List Post),
          processPosts env kws st (pre ++ p :: rest)
            = processPosts env kws st (pre ++ rest))
    ∧ (∀ env' : Env, sameCollaborators env env' →
        ∀ (st : ProcState) (posts : List Post),
          (processPosts env kws st posts).state
              = (processPosts env' kws st posts).state
          ∧ (processPosts env kws st posts).notifs.map payloadOf
              = (processPosts env' kws st posts).notifs.map payloadOf
          ∧ (processPosts env kws st posts).escaped
              = (processPosts env' kws st posts).escaped)
    ∧ (∀ (st : ProcState) (p : Post) (e : String),
        matchesPost kws p = true → isNewPost st p = true →
        env.scrape p.url = none → env.article p.url = Except.error e →
        ∀ rest : List Post,
          processPosts env kws st (p :: rest)
            = { state := st, notifs := [], escaped := some e }) := by
  refine ⟨?_, ?_, ?_, ?_⟩
  · intro st p r rest h
    exact processPosts_cons_ok env kws st p rest r h
  · intro p hf st pre rest
    exact processPosts_drop_no_content env kws p hf pre st rest
  · intro env' hcollab st posts
    exact processPosts_collab_congr env env' hcollab kws posts st
  · intro st p e hm hn hs ha rest
    have hfb : contentOf env p.url = Except.error e := by
      simp [contentOf, fallbackContent, hs, ha]
    have hpp : processPost env kws st p = Except.error e := by
      rw [processPost_run env kws st p hm hn, runPipeline_error env st p e hfb]
    exact processPosts_cons_error env kws st p rest e hpp

/-- C6 (amended, witness): a matching post whose content sources both
yield no text in-band is dropped, and the next post of the snapshot is
processed exactly as without it. -/
theorem per_post_failure_isolated_amended_witness :
    processPosts failEnv tKws [] (tPost3 :: [tPost1])
      = processPosts failEnv tKws [] [tPost1] :=
  (per_post_failure_isolated_amended failEnv tKws).2.1 tPost3 (by decide)
    [] [] [tPost1]

/-- C7: a failing or empty extraction does not abort the pipeline: for a
matching, new post whose content was obtained, the post is still
committed and exactly one notification is emitted whose body is the post
URL followed by an empty extraction section. -/
theorem empty_extraction_still_notifies (env : Env) (kws : List String)
    (st : ProcState) (p : Post) (c : String)
    (hm : matchesPost kws p = true) (hn : isNewPost st p = true)
    (hc : contentOf env p.url = Except.ok (some c))
    (he : env.extract c = none ∨ env.extract c = some "") :
    processPost env kws st p
      = Except.ok (insertRecord st (postKey p) (mkRecord p),
         [{ title := notificationTitle p,
            body := "链接: " ++ p.url ++ "\n\n提取信息:\n",
            delivered := send_notification env (notificationTitle p)
              ("链接: " ++ p.url ++ "\n\n提取信息:\n") }]) := by
  have hbody : notificationBody p ((env.extract c).getD "")
      = "链接: " ++ p.url ++ "\n\n提取信息:\n" := by
    rcases he with he | he <;> simp [he, notificationBody, stripStars]
  rw [processPost_run env kws st p hm hn, runPipeline_some env st p c hc, hbody]

/-- C7 (witness): with content obtained through the article fallback and
a failing extraction collaborator, a matching new post is still
committed and notified with an empty extraction section. -/
theorem empty_extraction_still_notifies_witness :
    processPost fallbackEnv tKws [] tPost3
      = Except.ok (insertRecord [] (postKey tPost3) (mkRecord tPost3),
         [{ title := notificationTitle tPost3,
            body := "链接: " ++ tPost3.url ++ "\n\n提取信息:\n",
            delivered := send_notification fallbackEnv (notificationTitle tPost3)
              ("链接: " ++ tPost3.url ++ "\n\n提取信息:\n") }]) :=
  empty_extraction_still_notifies fallbackEnv tKws [] tPost3
    "page text 送码 CODE-9" (by decide) (by decide) (by decide) (Or.inl rfl)

/-- C8: the keyword filter with an empty keyword list rejects every
text: an empty keyword set matches nothing. -/
theorem empty_keywords_match_nothing (text : String) :
    check_keywords [] text = false := rfl

/-- C9: the feed fetch builds a cache-busted URL into a local variable
but issues its GET against the bare configured URL; at a concrete feed
URL and timestamp, the URL actually requested carries no t parameter
even though the cache-busted one was computed. -/
theorem feed_request_drops_cache_buster :
    requestedUrl "https://www.v2ex.com/api/topics/latest.json" 1700000000000
      = "https://www.v2ex.com/api/topics/latest.json"
    ∧ cacheBustedUrl "https://www.v2ex.com/api/topics/latest.json" 1700000000000
      = "https://www.v2ex.com/api/topics/latest.json?t=1700000000000"
    ∧ strContains
        (requestedUrl "https://www.v2ex.com/api/topics/latest.json" 1700000000000)
        "?t=" = false :=
  ⟨rfl, by decide, by decide⟩

/-- C10: an empty KEYWORDS configuration string splits into the
singleton list containing the empty string, and the keyword filter built
from it accepts every text, so every post passes the filter. -/
theorem empty_config_matches_everything :
    parseKeywords "" = [""]
    ∧ ∀ text : String, check_keywords (parseKeywords "") text = true := by
  have h : parseKeywords "" = [""] := by decide
  refine ⟨h, fun text => ?_⟩
  rw [h]
  simp [check_keywords, strContains, containsSub_nil]
